import Mathlib

/-
Verification of the autodE transition-state search engine against its
natural-language specification.

The definitions below are shallow embeddings of the Python source files
  src/autode/transition_states/base.py
  src/autode/transition_states/locate_tss.py
  src/autode/reaction.py
Machine floats are modelled by exact rationals, numpy arrays by lists of
rational triples, and the external electronic-structure / molecular-graph
oracles by explicit function parameters.  Definitions labelled
"Modelled from the spec" stand for code of the repository that is not part
of the provided source tree (only its callers are) and follow the words of
the specification.
-/

/-! ## Geometry: coordinates and normal-mode displacement
    (src/autode/transition_states/base.py, displaced_species_along_mode) -/

/-- A 3-D coordinate with exact rational components, standing for one row of
a numpy coordinate array. -/
abbrev Vec3 : Type := ℚ × ℚ × ℚ

/-- Componentwise addition of two coordinate rows. -/
def addV (a b : Vec3) : Vec3 := (a.1 + b.1, a.2.1 + b.2.1, a.2.2 + b.2.2)

/-- Componentwise subtraction of two coordinate rows. -/
def subV (a b : Vec3) : Vec3 := (a.1 - b.1, a.2.1 - b.2.1, a.2.2 - b.2.2)

/-- Scaling of a coordinate row by a rational factor. -/
def smulV (c : ℚ) (a : Vec3) : Vec3 := (c * a.1, c * a.2.1, c * a.2.2)

/-- Squared Euclidean norm of a coordinate row.  The source compares
Euclidean norms against a nonnegative threshold, which is equivalent to
comparing squared norms against the squared threshold, so all comparisons
below are phrased on squares to stay inside the rationals. -/
def sqnormV (a : Vec3) : ℚ := a.1 ^ 2 + a.2.1 ^ 2 + a.2.2 ^ 2

/-- Rowwise sum of two coordinate arrays (numpy broadcast `+`). -/
def addL (xs ys : List Vec3) : List Vec3 := List.zipWith addV xs ys

/-- Rowwise difference of two coordinate arrays (numpy broadcast `-`). -/
def subL (xs ys : List Vec3) : List Vec3 := List.zipWith subV xs ys

/-- Scaling of a coordinate array (numpy scalar `*`). -/
def smulL (c : ℚ) (xs : List Vec3) : List Vec3 := xs.map (smulV c)

/-- Per-atom squared displacement distances between two coordinate arrays:
the squares of `np.linalg.norm(coords - disp_coords, axis=1)`. -/
def sqDists (xs ys : List Vec3) : List ℚ :=
  List.zipWith (fun a b => sqnormV (subV a b)) xs ys

/-- The maximum per-atom squared displacement, the square of
`np.max(np.linalg.norm(coords - disp_coords, axis=1))` (0 for an empty
geometry). -/
def maxSqDisp (xs ys : List Vec3) : ℚ := (sqDists xs ys).foldr max 0

/-- The shrink loop of `displaced_species_along_mode`
(base.py lines 350-355): up to 20 times, stop as soon as every atom moved
less than `max_atom_disp`, otherwise subtract `disp_factor / 20` of the mode
vector from the displaced coordinates.  The break test
`np.max(np.linalg.norm(coords - disp_coords, axis=1)) < max_atom_disp`
is rendered on squares: for any real threshold `cap`, `r < cap` with
`r ≥ 0` holds iff `0 ≤ cap` and `r ^ 2 < cap ^ 2`. -/
def shrink_loop (coords mode : List Vec3) (disp_factor max_atom_disp : ℚ) :
    ℕ → List Vec3 → List Vec3
  | 0, disp_coords => disp_coords
  | n + 1, disp_coords =>
      if 0 ≤ max_atom_disp ∧ maxSqDisp coords disp_coords < max_atom_disp ^ 2 then
        disp_coords
      else
        shrink_loop coords mode disp_factor max_atom_disp n
          (subL disp_coords (smulL (disp_factor / 20) mode))

/-- Embedding of `displaced_species_along_mode` (base.py lines 311-364).
The species normal mode is the Hessian oracle output, passed as an
optional coordinate array; when it is absent the function returns `None`.
Otherwise the displaced coordinates start at
`coords + disp_factor * mode_disp_coords` and are shrunk by the loop above.
The returned value is the coordinate array of the new displaced species. -/
def displaced_species_along_mode (coords : List Vec3) (mode : Option (List Vec3))
    (disp_factor max_atom_disp : ℚ) : Option (List Vec3) :=
  match mode with
  | none => none
  | some m =>
      some (shrink_loop coords m disp_factor max_atom_disp 20
              (addL coords (smulL disp_factor m)))

lemma subV_addV_smulV (a v : Vec3) (c d : ℚ) :
    subV (addV a (smulV c v)) (smulV d v) = addV a (smulV (c - d) v) := by
  obtain ⟨a1, a2, a3⟩ := a
  obtain ⟨v1, v2, v3⟩ := v
  simp only [addV, subV, smulV, Prod.mk.injEq]
  refine ⟨by ring, by ring, by ring⟩

lemma subL_addL_smulL (coords : List Vec3) (c d : ℚ) :
    ∀ m : List Vec3,
      subL (addL coords (smulL c m)) (smulL d m) = addL coords (smulL (c - d) m) := by
  induction coords with
  | nil => intro m; rfl
  | cons a as ih =>
      intro m
      cases m with
      | nil => rfl
      | cons v vs =>
          simp only [addL, smulL, subL, List.map_cons, List.zipWith_cons_cons]
          exact congrArg₂ _ (subV_addV_smulV a v c d) (ih vs)

lemma maxSqDisp_smul_zero (coords : List Vec3) :
    ∀ m : List Vec3, maxSqDisp coords (addL coords (smulL 0 m)) = 0 := by
  induction coords with
  | nil => intro m; rfl
  | cons a as ih =>
      intro m
      cases m with
      | nil => rfl
      | cons v vs =>
          have hrow : sqnormV (subV a (addV a (smulV 0 v))) = 0 := by
            obtain ⟨a1, a2, a3⟩ := a
            obtain ⟨v1, v2, v3⟩ := v
            simp only [addV, subV, smulV, sqnormV]
            ring
          simp only [addL, smulL, List.map_cons, List.zipWith_cons_cons, maxSqDisp,
            sqDists] at ih ⊢
          rw [hrow, List.foldr_cons, ih vs]
          simp

lemma shrink_loop_bound (coords m : List Vec3) (f cap : ℚ) (hcap : 0 < cap) :
    ∀ n : ℕ,
      maxSqDisp coords
        (shrink_loop coords m f cap n (addL coords (smulL ((n : ℚ) * (f / 20)) m)))
        ≤ cap ^ 2 := by
  intro n
  induction n with
  | zero =>
      simp only [shrink_loop, Nat.cast_zero, zero_mul]
      rw [maxSqDisp_smul_zero coords m]
      positivity
  | succ k ih =>
      simp only [shrink_loop]
      split
      · next h => exact le_of_lt h.2
      · next h =>
          rw [subL_addL_smulL]
          have hc : ((k : ℚ) + 1) * (f / 20) - f / 20 = (k : ℚ) * (f / 20) := by ring
          rw [Nat.cast_add, Nat.cast_one, hc]
          exact ih

/-- Claim C3: for every species with a normal mode, every mode number, every
displacement factor and every positive `max_atom_disp`, the geometry returned
by `displaced_species_along_mode` has maximum single-atom displacement not
exceeding `max_atom_disp` (stated over exact arithmetic, on squared norms:
every per-atom squared displacement is at most `max_atom_disp ^ 2`), achieved
by iteratively subtracting `disp_factor / 20` of the mode vector for at most
20 attempts. -/
theorem displaced_species_max_disp_bounded
    (coords m : List Vec3) (disp_factor max_atom_disp : ℚ)
    (hcap : 0 < max_atom_disp) (res : List Vec3)
    (hres : displaced_species_along_mode coords (some m) disp_factor max_atom_disp
              = some res) :
    maxSqDisp coords res ≤ max_atom_disp ^ 2 := by
  have hb := shrink_loop_bound coords m disp_factor max_atom_disp hcap 20
  have h20 : ((20 : ℕ) : ℚ) * (disp_factor / 20) = disp_factor := by
    push_cast
    ring
  rw [h20] at hb
  simp only [displaced_species_along_mode, Option.some.injEq] at hres
  rw [← hres]
  exact hb

/-- Demonstration coordinates for the displacement bound. -/
def demoCoords : List Vec3 := [((0 : ℚ), (0 : ℚ), (0 : ℚ)), ((1 : ℚ), (0 : ℚ), (0 : ℚ))]

/-- Demonstration normal-mode vector for the displacement bound. -/
def demoMode : List Vec3 := [((3 : ℚ), (0 : ℚ), (0 : ℚ)), ((0 : ℚ), (4 : ℚ), (0 : ℚ))]

/-- Witness for claim C3 at a concrete geometry, mode and cap. -/
theorem displaced_species_max_disp_bounded_witness :
    (0 : ℚ) < 1 / 2 ∧
      maxSqDisp demoCoords
        ((displaced_species_along_mode demoCoords (some demoMode) 1 (1 / 2)).getD [])
        ≤ (1 / 2 : ℚ) ^ 2 := by
  refine ⟨by norm_num, ?_⟩
  exact displaced_species_max_disp_bounded demoCoords demoMode 1 (1 / 2) (by norm_num)
    _ (by rfl)

/-! ## Bond rearrangements and the TS-guess strategy generator
    (src/autode/transition_states/locate_tss.py) -/

/-- Reaction classes from autode.reactions, used by
`get_ts_guess_function_and_params` to select the substitution/elimination
2-D scan branch. -/
inductive ReactionType : Type
  | Addition
  | Dissociation
  | Substitution
  | Elimination
  | Rearrangement
deriving DecidableEq

/-- Modelled from the spec: `autode.bond_rearrangement.BondRearrangement`
(its module is not part of the provided source tree): two sets of atom-index
pairs, the forming bonds `fbonds` and the breaking bonds `bbonds`. -/
structure BondRearrangement : Type where
  fbonds : List (ℕ × ℕ)
  bbonds : List (ℕ × ℕ)
deriving DecidableEq

/-- Modelled from the spec: `n_fbonds` counts the forming-bond pairs. -/
def BondRearrangement.n_fbonds (br : BondRearrangement) : ℕ := br.fbonds.length

/-- Modelled from the spec: `n_bbonds` counts the breaking-bond pairs. -/
def BondRearrangement.n_bbonds (br : BondRearrangement) : ℕ := br.bbonds.length

/-- Modelled from the spec: `all` is the list of every forming and breaking
bond of the rearrangement. -/
def BondRearrangement.all_bonds (br : BondRearrangement) : List (ℕ × ℕ) :=
  br.fbonds ++ br.bbonds

/-- Modelled from the spec: the derived set of active atoms, all atoms
touched by any forming or breaking pair. -/
def BondRearrangement.active_atoms (br : BondRearrangement) : List ℕ :=
  (br.fbonds ++ br.bbonds).flatMap (fun b => [b.1, b.2])

/-- The data of `autode.reaction.Reaction` consumed by the strategy
generator: the reaction class and the molecular charges of reactants and
products. -/
structure ReactionL : Type where
  rtype : ReactionType
  reac_charges : List ℤ
  prod_charges : List ℤ

/-- Embedding of `get_added_bbond_dist` (locate_tss.py lines 281-299):
2.5 Å when any product is charged, else 1.5 Å. -/
def get_added_bbond_dist (reaction : ReactionL) : ℚ :=
  if reaction.prod_charges.any (fun c => decide (c ≠ 0)) then 5 / 2 else 3 / 2

/-- Which TS-guess function a generator item applies:
`get_template_ts_guess`, `get_ts_guess_1d` or `get_ts_guess_2d`. -/
inductive GuessFn : Type
  | template_guess
  | guess_1d
  | guess_2d
deriving DecidableEq

/-- Identifies the yield site inside `get_ts_guess_function_and_params` by
the suffix of the scan name built there:
`template_tag` = the template strategy (line 72), `ll2d_se` = "ll2d" in the
substitution/elimination branch (line 84), `hl1d_bbond` / `hl1d_opt_bbond` =
"hl1d_bbond" / "hl1d_opt_level_bbond" (lines 87, 90), `hl1d_fbond` /
`hl1d_opt_fbond` = "hl1d_fbond" / "hl1d_opt_level_fbond" (lines 99, 102),
`ll2d_pair` / `hl2d_pair` = "ll2d" / "hl2d" in the forming-breaking pair
loop (lines 114, 117), `hl1d_single` / `hl1d_opt_single` = "hl1d" /
"hl1d_opt_level" (lines 125, 128), `ll2d_fbonds` / `hl2d_fbonds` =
"ll2d_fbonds" / "hl2d_fbonds" (lines 141, 143), and `ll2d_bbonds` /
`hl2d_bbonds` = "ll2d_bbonds" / "hl2d_bbonds" (lines 153, 156). -/
inductive ScanTag : Type
  | template_tag
  | ll2d_se
  | hl1d_bbond
  | hl1d_opt_bbond
  | hl1d_fbond
  | hl1d_opt_fbond
  | ll2d_pair
  | hl2d_pair
  | hl1d_single
  | hl1d_opt_single
  | ll2d_fbonds
  | hl2d_fbonds
  | ll2d_bbonds
  | hl2d_bbonds
deriving DecidableEq

/-- One `(func, params)` pair yielded by the generator: the guess function,
the yield site, the scanned bonds, the number of scan points (0 for the
template strategy) and the target final distances of the scanned bonds. -/
structure StrategyCall : Type where
  fn : GuessFn
  tag : ScanTag
  bonds : List (ℕ × ℕ)
  n_points : ℕ
  final_dists : List ℚ
deriving DecidableEq


/-- The single template-strategy yield of `get_ts_guess_function_and_params`
(locate_tss.py line 72): `get_template_ts_guess` on the whole rearrangement. -/
def seg_template (br : BondRearrangement) : List StrategyCall :=
  [⟨GuessFn.template_guess, ScanTag.template_tag, br.fbonds ++ br.bbonds, 0, []⟩]

/-- The substitution/elimination branch of the generator
(locate_tss.py lines 75-91): guarded by `n_bbonds == 1 and n_fbonds == 1 and
reaction.type in (Substitution, Elimination)`; yields a low-level 2-D scan
over the forming and breaking bond, then two high-level 1-D scans over the
breaking bond. -/
def seg_se (reaction : ReactionL) (avg_bond_length : String → String → ℚ)
    (dist : ℕ → ℕ → ℚ) (label : ℕ → String) (br : BondRearrangement) :
    List StrategyCall :=
  if br.n_bbonds = 1 ∧ br.n_fbonds = 1 ∧
      (reaction.rtype = ReactionType.Substitution ∨
       reaction.rtype = ReactionType.Elimination) then
    [⟨GuessFn.guess_2d, ScanTag.ll2d_se,
      [br.fbonds.headD (0, 0), br.bbonds.headD (0, 0)], 12,
      [avg_bond_length (label (br.fbonds.headD (0, 0)).1)
         (label (br.fbonds.headD (0, 0)).2),
       dist (br.bbonds.headD (0, 0)).1 (br.bbonds.headD (0, 0)).2
         + get_added_bbond_dist reaction]⟩,
     ⟨GuessFn.guess_1d, ScanTag.hl1d_bbond, [br.bbonds.headD (0, 0)], 12,
      [dist (br.bbonds.headD (0, 0)).1 (br.bbonds.headD (0, 0)).2
         + get_added_bbond_dist reaction]⟩,
     ⟨GuessFn.guess_1d, ScanTag.hl1d_opt_bbond, [br.bbonds.headD (0, 0)], 12,
      [dist (br.bbonds.headD (0, 0)).1 (br.bbonds.headD (0, 0)).2
         + get_added_bbond_dist reaction]⟩]
  else []

/-- The single-forming-bond branch of the generator (locate_tss.py lines
93-103): guarded by `n_bbonds > 0 and n_fbonds == 1`; yields two high-level
1-D scans over the forming bond. -/
def seg_fbond_1d (avg_bond_length : String → String → ℚ) (label : ℕ → String)
    (br : BondRearrangement) : List StrategyCall :=
  if 0 < br.n_bbonds ∧ br.n_fbonds = 1 then
    [⟨GuessFn.guess_1d, ScanTag.hl1d_fbond, [br.fbonds.headD (0, 0)], 10,
      [avg_bond_length (label (br.fbonds.headD (0, 0)).1)
         (label (br.fbonds.headD (0, 0)).2)]⟩,
     ⟨GuessFn.guess_1d, ScanTag.hl1d_opt_fbond, [br.fbonds.headD (0, 0)], 12,
      [avg_bond_length (label (br.fbonds.headD (0, 0)).1)
         (label (br.fbonds.headD (0, 0)).2)]⟩]
  else []

/-- The forming-breaking pair loop of the generator (locate_tss.py lines
105-118): guarded by `n_bbonds >= 1 and n_fbonds >= 1`; for every forming
bond and every breaking bond it yields a low-level and a high-level 2-D
scan. -/
def seg_pair_2d (reaction : ReactionL) (avg_bond_length : String → String → ℚ)
    (dist : ℕ → ℕ → ℚ) (label : ℕ → String) (br : BondRearrangement) :
    List StrategyCall :=
  if 1 ≤ br.n_bbonds ∧ 1 ≤ br.n_fbonds then
    br.fbonds.flatMap (fun fbond =>
      br.bbonds.flatMap (fun bbond =>
        [⟨GuessFn.guess_2d, ScanTag.ll2d_pair, [fbond, bbond], 12,
          [avg_bond_length (label fbond.1) (label fbond.2),
           dist bbond.1 bbond.2 + get_added_bbond_dist reaction]⟩,
         ⟨GuessFn.guess_2d, ScanTag.hl2d_pair, [fbond, bbond], 8,
          [avg_bond_length (label fbond.1) (label fbond.2),
           dist bbond.1 bbond.2 + get_added_bbond_dist reaction]⟩]))
  else []

/-- The lone-breaking-bond branch of the generator (locate_tss.py lines
120-129): guarded by `n_bbonds == 1 and n_fbonds == 0`; yields two
high-level 1-D scans over the breaking bond. -/
def seg_bbond_1d (reaction : ReactionL) (dist : ℕ → ℕ → ℚ)
    (br : BondRearrangement) : List StrategyCall :=
  if br.n_bbonds = 1 ∧ br.n_fbonds = 0 then
    [⟨GuessFn.guess_1d, ScanTag.hl1d_single, [br.bbonds.headD (0, 0)], 12,
      [dist (br.bbonds.headD (0, 0)).1 (br.bbonds.headD (0, 0)).2
         + get_added_bbond_dist reaction]⟩,
     ⟨GuessFn.guess_1d, ScanTag.hl1d_opt_single, [br.bbonds.headD (0, 0)], 12,
      [dist (br.bbonds.headD (0, 0)).1 (br.bbonds.headD (0, 0)).2
         + get_added_bbond_dist reaction]⟩]
  else []

/-- The two-forming-bond branch of the generator (locate_tss.py lines
131-144): guarded by `n_fbonds == 2` alone; yields a low-level and a
high-level 2-D scan over the two forming bonds. -/
def seg_two_fbonds (avg_bond_length : String → String → ℚ) (label : ℕ → String)
    (br : BondRearrangement) : List StrategyCall :=
  if br.n_fbonds = 2 then
    [⟨GuessFn.guess_2d, ScanTag.ll2d_fbonds,
      [br.fbonds.headD (0, 0), (br.fbonds.drop 1).headD (0, 0)], 12,
      [avg_bond_length (label (br.fbonds.headD (0, 0)).1)
         (label (br.fbonds.headD (0, 0)).2),
       avg_bond_length (label ((br.fbonds.drop 1).headD (0, 0)).1)
         (label ((br.fbonds.drop 1).headD (0, 0)).2)]⟩,
     ⟨GuessFn.guess_2d, ScanTag.hl2d_fbonds,
      [br.fbonds.headD (0, 0), (br.fbonds.drop 1).headD (0, 0)], 8,
      [avg_bond_length (label (br.fbonds.headD (0, 0)).1)
         (label (br.fbonds.headD (0, 0)).2),
       avg_bond_length (label ((br.fbonds.drop 1).headD (0, 0)).1)
         (label ((br.fbonds.drop 1).headD (0, 0)).2)]⟩]
  else []

/-- The two-breaking-bond branch of the generator (locate_tss.py lines
146-157): guarded by `n_bbonds == 2` alone; yields a low-level and a
high-level 2-D scan over the two breaking bonds.  It reproduces the source
as written: both final distances use
`reactant.get_distance(bbond1[0], bbond2[1])` with the added distance
applied twice (lines 150-151). -/
def seg_two_bbonds (reaction : ReactionL) (dist : ℕ → ℕ → ℚ)
    (br : BondRearrangement) : List StrategyCall :=
  if br.n_bbonds = 2 then
    [⟨GuessFn.guess_2d, ScanTag.ll2d_bbonds,
      [br.bbonds.headD (0, 0), (br.bbonds.drop 1).headD (0, 0)], 12,
      [dist (br.bbonds.headD (0, 0)).1 ((br.bbonds.drop 1).headD (0, 0)).2
         + get_added_bbond_dist reaction + get_added_bbond_dist reaction,
       dist (br.bbonds.headD (0, 0)).1 ((br.bbonds.drop 1).headD (0, 0)).2
         + get_added_bbond_dist reaction + get_added_bbond_dist reaction]⟩,
     ⟨GuessFn.guess_2d, ScanTag.hl2d_bbonds,
      [br.bbonds.headD (0, 0), (br.bbonds.drop 1).headD (0, 0)], 8,
      [dist (br.bbonds.headD (0, 0)).1 ((br.bbonds.drop 1).headD (0, 0)).2
         + get_added_bbond_dist reaction + get_added_bbond_dist reaction,
       dist (br.bbonds.headD (0, 0)).1 ((br.bbonds.drop 1).headD (0, 0)).2
         + get_added_bbond_dist reaction + get_added_bbond_dist reaction]⟩]
  else []

/-- Embedding of `get_ts_guess_function_and_params`
(locate_tss.py lines 55-159) as the list of the `(func, params)` pairs the
generator yields, in yield order, the concatenation of the branch segments
above.  `avg_bond_length` stands for the external table lookup
`get_avg_bond_length`, `dist i j` for `reactant.get_distance(i, j)` and
`label i` for `reactant.atoms[i].label`.  The name strings built for log
files are not modelled; the yield site is recorded in the `tag` field
instead. -/
def get_ts_guess_function_and_params (reaction : ReactionL)
    (avg_bond_length : String → String → ℚ) (dist : ℕ → ℕ → ℚ)
    (label : ℕ → String) (br : BondRearrangement) : List StrategyCall :=
  seg_template br
  ++ seg_se reaction avg_bond_length dist label br
  ++ seg_fbond_1d avg_bond_length label br
  ++ seg_pair_2d reaction avg_bond_length dist label br
  ++ seg_bbond_1d reaction dist br
  ++ seg_two_fbonds avg_bond_length label br
  ++ seg_two_bbonds reaction dist br

/-- Does a generator item come from the specialized two-forming-bond 2-D
scan branch? -/
def is_two_fbond_scan (c : StrategyCall) : Bool :=
  decide (c.tag = ScanTag.ll2d_fbonds ∨ c.tag = ScanTag.hl2d_fbonds)

/-- Does a generator item come from the specialized two-breaking-bond 2-D
scan branch? -/
def is_two_bbond_scan (c : StrategyCall) : Bool :=
  decide (c.tag = ScanTag.ll2d_bbonds ∨ c.tag = ScanTag.hl2d_bbonds)

lemma any_false_of_forall_false {α : Type} (p : α → Bool) :
    ∀ l : List α, (∀ a ∈ l, p a = false) → l.any p = false := by
  intro l h
  rw [List.any_eq_false]
  intro x hx
  rw [h x hx]
  simp

lemma seg_se_any_fb (reaction avg_bond_length dist label br) :
    (seg_se reaction avg_bond_length dist label br).any is_two_fbond_scan = false := by
  unfold seg_se
  split <;> rfl

lemma seg_fbond_1d_any_fb (avg_bond_length label br) :
    (seg_fbond_1d avg_bond_length label br).any is_two_fbond_scan = false := by
  unfold seg_fbond_1d
  split <;> rfl

lemma seg_pair_2d_any_fb (reaction avg_bond_length dist label br) :
    (seg_pair_2d reaction avg_bond_length dist label br).any is_two_fbond_scan = false := by
  unfold seg_pair_2d
  split
  · rw [List.any_flatMap]
    refine any_false_of_forall_false _ _ (fun a _ => ?_)
    rw [List.any_flatMap]
    exact any_false_of_forall_false _ _ (fun b _ => rfl)
  · rfl

lemma seg_bbond_1d_any_fb (reaction dist br) :
    (seg_bbond_1d reaction dist br).any is_two_fbond_scan = false := by
  unfold seg_bbond_1d
  split <;> rfl

lemma seg_two_bbonds_any_fb (reaction dist br) :
    (seg_two_bbonds reaction dist br).any is_two_fbond_scan = false := by
  unfold seg_two_bbonds
  split <;> rfl

lemma seg_two_fbonds_any_fb (avg_bond_length label br) :
    (seg_two_fbonds avg_bond_length label br).any is_two_fbond_scan
      = decide (br.n_fbonds = 2) := by
  unfold seg_two_fbonds
  split
  · next h => simp [h, is_two_fbond_scan]
  · next h => simp [h]

lemma seg_se_any_bb (reaction avg_bond_length dist label br) :
    (seg_se reaction avg_bond_length dist label br).any is_two_bbond_scan = false := by
  unfold seg_se
  split <;> rfl

lemma seg_fbond_1d_any_bb (avg_bond_length label br) :
    (seg_fbond_1d avg_bond_length label br).any is_two_bbond_scan = false := by
  unfold seg_fbond_1d
  split <;> rfl

lemma seg_pair_2d_any_bb (reaction avg_bond_length dist label br) :
    (seg_pair_2d reaction avg_bond_length dist label br).any is_two_bbond_scan = false := by
  unfold seg_pair_2d
  split
  · rw [List.any_flatMap]
    refine any_false_of_forall_false _ _ (fun a _ => ?_)
    rw [List.any_flatMap]
    exact any_false_of_forall_false _ _ (fun b _ => rfl)
  · rfl

lemma seg_bbond_1d_any_bb (reaction dist br) :
    (seg_bbond_1d reaction dist br).any is_two_bbond_scan = false := by
  unfold seg_bbond_1d
  split <;> rfl

lemma seg_two_fbonds_any_bb (avg_bond_length label br) :
    (seg_two_fbonds avg_bond_length label br).any is_two_bbond_scan = false := by
  unfold seg_two_fbonds
  split <;> rfl

lemma seg_two_bbonds_any_bb (reaction dist br) :
    (seg_two_bbonds reaction dist br).any is_two_bbond_scan
      = decide (br.n_bbonds = 2) := by
  unfold seg_two_bbonds
  split
  · next h => simp [h, is_two_bbond_scan]
  · next h => simp [h]

/-- Claim C1 (amended): the generator yields the specialized
two-forming-bond 2-D scans exactly when the rearrangement has exactly two
forming bonds, and the specialized two-breaking-bond 2-D scans exactly when
it has exactly two breaking bonds; the count of bonds of the other kind is
not consulted by either branch guard. -/
theorem ts_guess_specialized_two_bond_scans_iff (reaction : ReactionL)
    (avg_bond_length : String → String → ℚ) (dist : ℕ → ℕ → ℚ)
    (label : ℕ → String) (br : BondRearrangement) :
    (((get_ts_guess_function_and_params reaction avg_bond_length dist label br).any
        is_two_fbond_scan = true) ↔ br.n_fbonds = 2)
    ∧ (((get_ts_guess_function_and_params reaction avg_bond_length dist label br).any
        is_two_bbond_scan = true) ↔ br.n_bbonds = 2) := by
  constructor
  · rw [get_ts_guess_function_and_params]
    simp only [List.any_append, seg_se_any_fb, seg_fbond_1d_any_fb, seg_pair_2d_any_fb,
      seg_bbond_1d_any_fb, seg_two_fbonds_any_fb, seg_two_bbonds_any_fb]
    simp [seg_template, is_two_fbond_scan]
  · rw [get_ts_guess_function_and_params]
    simp only [List.any_append, seg_se_any_bb, seg_fbond_1d_any_bb, seg_pair_2d_any_bb,
      seg_bbond_1d_any_bb, seg_two_fbonds_any_bb, seg_two_bbonds_any_bb]
    simp [seg_template, is_two_bbond_scan]

/-- Demonstration reaction data: a substitution with one neutral reactant
and one neutral product. -/
def demoReaction : ReactionL := ⟨ReactionType.Substitution, [0], [0]⟩

/-- Demonstration stand-in for the average-bond-length table. -/
def demoAvg : String → String → ℚ := fun _ _ => 1

/-- Demonstration stand-in for the reactant distance matrix. -/
def demoDist : ℕ → ℕ → ℚ := fun _ _ => 2

/-- Demonstration stand-in for the atom labels. -/
def demoLabel : ℕ → String := fun _ => "C"

/-- Counterexample to claim C1 as stated: a rearrangement with exactly two
forming bonds and one breaking bond, for which the generator nevertheless
yields the specialized two-forming-bond 2-D scans, although the claim says
they are yielded only when there is no breaking bond. -/
theorem ts_guess_two_fbond_scan_counterexample :
    ((get_ts_guess_function_and_params demoReaction demoAvg demoDist demoLabel
        ⟨[(0, 1), (2, 3)], [(4, 5)]⟩).any is_two_fbond_scan = true)
    ∧ (⟨[(0, 1), (2, 3)], [(4, 5)]⟩ : BondRearrangement).n_bbonds ≠ 0 := by
  constructor
  · decide
  · decide

/-- Claim C6: for a rearrangement with exactly one forming and one breaking
bond in a substitution or elimination reaction, the generator yields, right
after the template strategy, the low-level 2-D scan over the forming and
breaking bond; every 1-D scan strategy comes later in the list (the first
two items are the template strategy and this 2-D scan). -/
theorem ts_guess_sn2_2d_scan_before_1d (reaction : ReactionL)
    (avg_bond_length : String → String → ℚ) (dist : ℕ → ℕ → ℚ)
    (label : ℕ → String) (br : BondRearrangement) (f b : ℕ × ℕ)
    (hf : br.fbonds = [f]) (hb : br.bbonds = [b])
    (hty : reaction.rtype = ReactionType.Substitution ∨
           reaction.rtype = ReactionType.Elimination) :
    ∃ rest,
      get_ts_guess_function_and_params reaction avg_bond_length dist label br =
        ⟨GuessFn.template_guess, ScanTag.template_tag, br.fbonds ++ br.bbonds, 0, []⟩
        :: ⟨GuessFn.guess_2d, ScanTag.ll2d_se, [f, b], 12,
            [avg_bond_length (label f.1) (label f.2),
             dist b.1 b.2 + get_added_bbond_dist reaction]⟩
        :: rest := by
  obtain ⟨rt, rcs, pcs⟩ := reaction
  obtain ⟨fbs, bbs⟩ := br
  dsimp only at hf hb hty
  subst hf
  subst hb
  rcases hty with h | h <;> subst h <;> exact ⟨_, rfl⟩

/-- Witness for claim C6 at a concrete substitution rearrangement. -/
theorem ts_guess_sn2_2d_scan_before_1d_witness :
    ∃ rest,
      get_ts_guess_function_and_params demoReaction demoAvg demoDist demoLabel
          ⟨[(0, 1)], [(1, 2)]⟩ =
        ⟨GuessFn.template_guess, ScanTag.template_tag, [(0, 1), (1, 2)], 0, []⟩
        :: ⟨GuessFn.guess_2d, ScanTag.ll2d_se, [(0, 1), (1, 2)], 12,
            [demoAvg (demoLabel 0) (demoLabel 1),
             demoDist 1 2 + get_added_bbond_dist demoReaction]⟩
        :: rest :=
  ts_guess_sn2_2d_scan_before_1d demoReaction demoAvg demoDist demoLabel
    ⟨[(0, 1)], [(1, 2)]⟩ (0, 1) (1, 2) rfl rfl (Or.inl rfl)

/-! ## Imaginary-mode validation
    (src/autode/transition_states/base.py, TSbase and module functions) -/

/-- The observations of a species geometry that the imaginary-mode checks
consume: its molecular-graph edges as rebuilt by the external graph oracle
`make_graph(species, rel_tolerance=0.3)`, and its interatomic distances
`species.distance(i, j)` as a rational-valued function of the atom
indices.  Coordinates enter these checks only through those two
observations. -/
structure SpeciesD : Type where
  edges : List (ℕ × ℕ)
  dist : ℕ → ℕ → ℚ

/-- The transition-state side of the displacement checks: the TS geometry
observations, the atom labels `ts.atoms[i].label`, and the bond
rearrangement being tested. -/
structure TSObsCore : Type where
  sp : SpeciesD
  label : ℕ → String
  br : BondRearrangement

/-- Undirected membership of a bond in an edge list, the networkx test
`bond in graph.edges`, which ignores the orientation of the pair. -/
def edgeIn (b : ℕ × ℕ) (es : List (ℕ × ℕ)) : Bool :=
  es.any (fun e => decide (e = b ∨ e = (b.2, b.1)))

/-- Embedding of `imag_mode_generates_other_bonds` (base.py lines 367-411):
for the forward- and then the backward-displaced species, collect the bonds
of the displaced graph that are not edges of the TS graph; when `allow_mx`
is set, drop those with a metal atom at either end (`isMetal` stands for
the membership test in the external `autode.atoms.metals` table); return
True as soon as the atoms of the remaining new bonds are not all contained
in the active atoms of the bond rearrangement. -/
def imag_mode_generates_other_bonds (ts : TSObsCore) (f_species b_species : SpeciesD)
    (isMetal : String → Bool) (allow_mx : Bool) : Bool :=
  [f_species, b_species].any (fun product =>
    ! ((if allow_mx then
          (product.edges.filter (fun bond => ! edgeIn bond ts.sp.edges)).filter
            (fun bond => !isMetal (ts.label bond.1) && !isMetal (ts.label bond.2))
        else
          product.edges.filter (fun bond => ! edgeIn bond ts.sp.edges)).flatMap
          (fun bond => [bond.1, bond.2])).all (fun a => decide (a ∈ ts.br.active_atoms)))

/-- Embedding of `TSbase.imag_mode_has_correct_displacement`
(base.py lines 126-206), given the forward- and backward-displaced species
produced upstream by `displaced_species_along_mode` with
`disp_factor = ±disp_mag` and `max_atom_disp = 0.5` (their geometry enters
only through the graph/distance observations).  First gate: if the
displacement generates bonds outside the active atoms — conservatively with
`allow_mx=True` — return False.  Then, for the forward and the backward
product, collect whether each forming bond shortened and each breaking bond
lengthened by more than `delta_threshold`; return True if they all did and
`req_all` is set, or if any did and `req_all` is not set; otherwise return
False. -/
def imag_mode_has_correct_displacement (ts : TSObsCore)
    (f_species b_species : SpeciesD) (isMetal : String → Bool)
    (disp_mag delta_threshold : ℚ) (req_all : Bool) : Bool :=
  if imag_mode_generates_other_bonds ts f_species b_species isMetal true then
    false
  else
    [f_species, b_species].any (fun product =>
      (req_all &&
        ((ts.br.fbonds.map (fun fb =>
            decide (delta_threshold < ts.sp.dist fb.1 fb.2 - product.dist fb.1 fb.2))
          ++ ts.br.bbonds.map (fun bb =>
            decide (delta_threshold < product.dist bb.1 bb.2 - ts.sp.dist bb.1 bb.2))).all
          (fun x => x)))
      || (!req_all &&
        ((ts.br.fbonds.map (fun fb =>
            decide (delta_threshold < ts.sp.dist fb.1 fb.2 - product.dist fb.1 fb.2))
          ++ ts.br.bbonds.map (fun bb =>
            decide (delta_threshold < product.dist bb.1 bb.2 - ts.sp.dist bb.1 bb.2))).any
          (fun x => x))))

/-- The state of a TSbase object as consumed by
`TSbase.could_have_correct_imag_mode`: the optional bond rearrangement, the
imaginary frequencies reported by the Hessian (in ascending order, most
negative first) as they stand after the possible Hessian calculation of
lines 68-70, the TS geometry observations, and the forward/backward
species displaced along mode 6 with `max_atom_disp = 0.5`. -/
structure TSState : Type where
  sp : SpeciesD
  label : ℕ → String
  bond_rearrangement : Option BondRearrangement
  imaginary_frequencies : Option (List ℚ)
  f_disp : SpeciesD
  b_disp : SpeciesD

/-- The ValueError message raised by `could_have_correct_imag_mode`
(base.py lines 64-66). -/
def noBondRearrMsg : String :=
  "ValueError: do not have a bond rearrangement - cannot check the imaginary mode"

/-- The IndexError a Python `imag_freqs[0]` access raises on an empty
list. -/
def emptyFreqsMsg : String := "IndexError: list index out of range"

/-- Embedding of `TSbase.could_have_correct_imag_mode`
(base.py lines 44-93): raise ValueError when the bond rearrangement is not
set; return False when the Hessian reports no imaginary modes; return False
when the most negative imaginary frequency is above
`Config.min_imag_freq`; otherwise return the result of the conservative
displacement check `imag_mode_has_correct_displacement(delta_threshold=0.05,
req_all=False)`.  Exceptions are modelled by the `Except` error branch. -/
def could_have_correct_imag_mode (s : TSState) (isMetal : String → Bool)
    (min_imag_freq : ℚ) : Except String Bool :=
  match s.bond_rearrangement with
  | none => Except.error noBondRearrMsg
  | some br =>
      match s.imaginary_frequencies with
      | none => Except.ok false
      | some [] => Except.error emptyFreqsMsg
      | some (f0 :: _) =>
          if min_imag_freq < f0 then
            Except.ok false
          else
            Except.ok (imag_mode_has_correct_displacement ⟨s.sp, s.label, br⟩
              s.f_disp s.b_disp isMetal 1 (1 / 20) false)

/-- The ValueError message raised by `imag_mode_links_reactant_products`
(base.py lines 225-227). -/
def noReacProdMsg : String :=
  "ValueError: could not check imaginary mode - reactants and/or products not set"

/-- Embedding of `TSbase.imag_mode_links_reactant_products`
(base.py lines 208-272): raise ValueError when the reactant or the product
complex is not set; otherwise the quick-reaction-coordinate displacement,
optimisation and isomorphism comparison all run through the external
electronic-structure and graph oracles, abstracted here as the boolean
oracle `qrc_links` of the two complexes. -/
def imag_mode_links_reactant_products (reactant product : Option SpeciesD)
    (qrc_links : SpeciesD → SpeciesD → Bool) : Except String Bool :=
  match reactant, product with
  | some r, some p => Except.ok (qrc_links r p)
  | _, _ => Except.error noReacProdMsg

/-- Claim C2 (amended): the displacement plausibility check rejects every
candidate whose forward- or backward-displaced geometry makes a new bond —
one absent from the TS graph, with no metal at either end (the metal
exemption of `allow_mx`, which this check always enables) — involving an
atom outside the declared active-atom set.  Only newly made bonds are
examined; bonds broken by the displacement are not consulted. -/
theorem displacement_check_rejects_new_outside_bond (ts : TSObsCore)
    (f_species b_species : SpeciesD) (isMetal : String → Bool)
    (disp_mag delta_threshold : ℚ) (req_all : Bool)
    (h : ∃ product ∈ [f_species, b_species], ∃ bond ∈ product.edges,
        edgeIn bond ts.sp.edges = false ∧ isMetal (ts.label bond.1) = false ∧
        isMetal (ts.label bond.2) = false ∧
        (bond.1 ∉ ts.br.active_atoms ∨ bond.2 ∉ ts.br.active_atoms)) :
    imag_mode_has_correct_displacement ts f_species b_species isMetal disp_mag
      delta_threshold req_all = false := by
  obtain ⟨product, hp, bond, hbond, hnew, hm1, hm2, hout⟩ := h
  have hgen : imag_mode_generates_other_bonds ts f_species b_species isMetal true
      = true := by
    rw [imag_mode_generates_other_bonds, List.any_eq_true]
    refine ⟨product, hp, ?_⟩
    rw [Bool.not_eq_true', List.all_eq_false]
    have hmem₂ : bond ∈ (product.edges.filter
        (fun b => ! edgeIn b ts.sp.edges)).filter
        (fun b => !isMetal (ts.label b.1) && !isMetal (ts.label b.2)) := by
      rw [List.mem_filter]
      refine ⟨List.mem_filter.mpr ⟨hbond, ?_⟩, ?_⟩
      · rw [Bool.not_eq_true']
        exact hnew
      · rw [hm1, hm2]
        rfl
    rcases hout with hout | hout
    · refine ⟨bond.1, ?_, by simp [hout]⟩
      simp only [if_pos]
      rw [List.mem_flatMap]
      exact ⟨bond, hmem₂, by simp⟩
    · refine ⟨bond.2, ?_, by simp [hout]⟩
      simp only [if_pos]
      rw [List.mem_flatMap]
      exact ⟨bond, hmem₂, by simp⟩
  rw [imag_mode_has_correct_displacement, if_pos hgen]

/-- Demonstration TS observations with active atoms 2 and 3. -/
def demoTSCore : TSObsCore :=
  ⟨⟨[], fun _ _ => 0⟩, fun _ => "C", ⟨[(2, 3)], []⟩⟩

/-- Demonstration forward-displaced species that makes the new bond (5, 6). -/
def demoFNew : SpeciesD := ⟨[(5, 6)], fun _ _ => 0⟩

/-- Demonstration backward-displaced species with no bonds. -/
def demoBEmpty : SpeciesD := ⟨[], fun _ _ => 0⟩

/-- Witness for claim C2 at a concrete displaced pair that makes a new bond
between two inactive non-metal atoms. -/
theorem displacement_check_rejects_new_outside_bond_witness :
    imag_mode_has_correct_displacement demoTSCore demoFNew demoBEmpty
      (fun _ => false) 1 (1 / 20) false = false :=
  displacement_check_rejects_new_outside_bond demoTSCore demoFNew demoBEmpty
    (fun _ => false) 1 (1 / 20) false
    ⟨demoFNew, by simp, (5, 6), by simp [demoFNew], rfl, rfl, rfl,
      Or.inl (by decide)⟩

/-- Demonstration TS observations whose geometry has the bond (0, 1), far
from the active atoms 2 and 3, with all TS distances 2. -/
def demoTSBreak : TSObsCore :=
  ⟨⟨[(0, 1)], fun _ _ => 2⟩, fun _ => "C", ⟨[(2, 3)], []⟩⟩

/-- Demonstration forward-displaced species in which the bond (0, 1) has
disappeared and every distance shrank to 1. -/
def demoFBreak : SpeciesD := ⟨[], fun _ _ => 1⟩

/-- Demonstration backward-displaced species identical in observations to
the TS. -/
def demoBBreak : SpeciesD := ⟨[(0, 1)], fun _ _ => 2⟩

/-- Counterexample to claim C2 as stated: the forward displacement breaks
the bond (0, 1), whose atoms lie outside the active-atom set 2, 3, yet
the check accepts the candidate, because only newly made bonds are
examined. -/
theorem displacement_check_broken_bond_counterexample :
    imag_mode_has_correct_displacement demoTSBreak demoFBreak demoBBreak
      (fun _ => false) 1 (1 / 20) false = true
    ∧ edgeIn (0, 1) demoTSBreak.sp.edges = true
    ∧ edgeIn (0, 1) demoFBreak.edges = false
    ∧ (0 : ℕ) ∉ demoTSBreak.br.active_atoms := by
  refine ⟨?_, by decide, by decide, by decide⟩
  have hg : imag_mode_generates_other_bonds demoTSBreak demoFBreak demoBBreak
      (fun _ => false) true = false := by decide
  have hlt : (1 : ℚ) / 20 < 2 - 1 := by norm_num
  simp only [imag_mode_has_correct_displacement, hg, Bool.false_eq_true, if_false,
    List.any_cons, List.any_nil, Bool.false_and, Bool.not_false, Bool.true_and,
    Bool.false_or, Bool.or_false, Bool.or_eq_true]
  left
  simp only [demoTSBreak, demoFBreak, List.map_cons, List.map_nil, List.append_nil,
    List.any_cons, List.any_nil, Bool.or_false, decide_eq_true_eq]
  exact hlt

/-- Claim C4: with a bond rearrangement set, `could_have_correct_imag_mode`
returns False when the Hessian reports no imaginary modes; returns False —
for every displaced-geometry observation, hence without consulting the
displacement check — when the most negative imaginary frequency is above
the configured `Config.min_imag_freq` threshold; and only when both gates
pass is the result that of the displacement check. -/
theorem could_have_imag_mode_gates (s : TSState) (isMetal : String → Bool)
    (min_imag_freq : ℚ) (br : BondRearrangement)
    (hbr : s.bond_rearrangement = some br) :
    (s.imaginary_frequencies = none →
      could_have_correct_imag_mode s isMetal min_imag_freq = Except.ok false)
    ∧ (∀ f0 fs, s.imaginary_frequencies = some (f0 :: fs) → min_imag_freq < f0 →
        could_have_correct_imag_mode s isMetal min_imag_freq = Except.ok false)
    ∧ (∀ f0 fs, s.imaginary_frequencies = some (f0 :: fs) → ¬ min_imag_freq < f0 →
        could_have_correct_imag_mode s isMetal min_imag_freq =
          Except.ok (imag_mode_has_correct_displacement ⟨s.sp, s.label, br⟩
            s.f_disp s.b_disp isMetal 1 (1 / 20) false)) := by
  refine ⟨?_, ?_, ?_⟩
  · intro hfreq
    simp only [could_have_correct_imag_mode, hbr, hfreq]
  · intro f0 fs hfreq hlt
    simp only [could_have_correct_imag_mode, hbr, hfreq]
    rw [if_pos hlt]
  · intro f0 fs hfreq hlt
    simp only [could_have_correct_imag_mode, hbr, hfreq]
    rw [if_neg hlt]

/-- Demonstration TS state whose Hessian reported no imaginary modes. -/
def demoStateNoImag : TSState :=
  ⟨⟨[], fun _ _ => 0⟩, fun _ => "H", some ⟨[(0, 1)], []⟩, none,
   ⟨[], fun _ _ => 0⟩, ⟨[], fun _ _ => 0⟩⟩

/-- Demonstration TS state whose most negative imaginary frequency, -10,
is above the -50 threshold. -/
def demoStateSmallImag : TSState :=
  ⟨⟨[], fun _ _ => 0⟩, fun _ => "H", some ⟨[(0, 1)], []⟩, some [-10],
   ⟨[], fun _ _ => 0⟩, ⟨[], fun _ _ => 0⟩⟩

/-- Witness for claim C4 at concrete candidate states: one with no
imaginary mode and one whose imaginary mode is smaller than the
threshold. -/
theorem could_have_imag_mode_gates_witness :
    could_have_correct_imag_mode demoStateNoImag (fun _ => false) (-50)
      = Except.ok false
    ∧ could_have_correct_imag_mode demoStateSmallImag (fun _ => false) (-50)
      = Except.ok false :=
  ⟨(could_have_imag_mode_gates demoStateNoImag (fun _ => false) (-50)
      ⟨[(0, 1)], []⟩ rfl).1 rfl,
   (could_have_imag_mode_gates demoStateSmallImag (fun _ => false) (-50)
      ⟨[(0, 1)], []⟩ rfl).2.1 (-10) [] rfl (by norm_num)⟩

/-- Claim C7: `could_have_correct_imag_mode` raises ValueError whenever the
bond rearrangement is not set, and `imag_mode_links_reactant_products`
raises ValueError whenever the reactant or the product is not set, rather
than returning a boolean. -/
theorem precondition_value_errors :
    (∀ (s : TSState) (isMetal : String → Bool) (min_imag_freq : ℚ),
        s.bond_rearrangement = none →
        could_have_correct_imag_mode s isMetal min_imag_freq =
          Except.error noBondRearrMsg)
    ∧ (∀ (reactant product : Option SpeciesD) (qrc : SpeciesD → SpeciesD → Bool),
        reactant = none ∨ product = none →
        imag_mode_links_reactant_products reactant product qrc =
          Except.error noReacProdMsg) := by
  constructor
  · intro s isMetal mif h
    simp only [could_have_correct_imag_mode, h]
  · intro reactant product qrc h
    rcases h with rfl | rfl
    · cases product <;> rfl
    · cases reactant <;> rfl

/-- Demonstration TS state with no bond rearrangement set. -/
def demoStateNoBr : TSState :=
  ⟨⟨[], fun _ _ => 0⟩, fun _ => "H", none, some [-500],
   ⟨[], fun _ _ => 0⟩, ⟨[], fun _ _ => 0⟩⟩

/-- Witness for claim C7 at a concrete rearrangement-free state and a
concrete reactant-free mode-linking call. -/
theorem precondition_value_errors_witness :
    could_have_correct_imag_mode demoStateNoBr (fun _ => false) (-50)
      = Except.error noBondRearrMsg
    ∧ imag_mode_links_reactant_products none (some ⟨[], fun _ _ => 0⟩)
        (fun _ _ => true) = Except.error noReacProdMsg :=
  ⟨precondition_value_errors.1 demoStateNoBr (fun _ => false) (-50) rfl,
   precondition_value_errors.2 none (some ⟨[], fun _ _ => 0⟩) (fun _ _ => true)
     (Or.inl rfl)⟩

/-! ## The per-rearrangement strategy loop and the top-level search
    (src/autode/transition_states/locate_tss.py, get_ts and find_tss) -/

/-- The outcome of running one strategy of the generator, abstracting the
external calculations `func(*params)` performs: whether a guess was
produced, and if so the booleans observed on it inside the `get_ts` loop —
`ts_guess.could_have_correct_imag_mode(...)` and, after promotion to a
`TransitionState` and `ts.opt_ts()`, `ts.is_true_ts()`. -/
structure GuessOutcome : Type where
  could_have : Bool
  is_true_ts : Bool

/-- Embedding of the strategy loop of `get_ts` (locate_tss.py lines
254-278): iterate the generator items in order; when `func(*params)`
produces no guess, continue; when the guess fails the fast plausibility
check, continue; when the optimised transition state fails validation,
continue; otherwise return it (modelled as the succeeding call paired with
its outcome).  Return None once every strategy is exhausted.  The
truncation pre-pass and the reactant translation/rotation of lines 246-251
mutate geometry and the template store only and are not part of the
returned value. -/
def get_ts (calls : List StrategyCall) (run : StrategyCall → Option GuessOutcome) :
    Option (StrategyCall × GuessOutcome) :=
  match calls with
  | [] => none
  | c :: rest =>
      match run c with
      | none => get_ts rest run
      | some g =>
          if !g.could_have then get_ts rest run
          else if !g.is_true_ts then get_ts rest run
          else some (c, g)

/-- A strategy succeeds when it produces a guess that passes the fast
plausibility check and whose optimised transition state passes full
validation. -/
def strategy_succeeds (run : StrategyCall → Option GuessOutcome)
    (c : StrategyCall) : Bool :=
  match run c with
  | none => false
  | some g => g.could_have && g.is_true_ts

lemma get_ts_eq_find (run : StrategyCall → Option GuessOutcome) :
    ∀ calls : List StrategyCall,
      get_ts calls run = (calls.find? (strategy_succeeds run)).bind
        (fun c => (run c).map (fun g => (c, g))) := by
  intro calls
  induction calls with
  | nil => rfl
  | cons c rest ih =>
      cases hrc : run c with
      | none =>
          have hs : strategy_succeeds run c = false := by
            simp [strategy_succeeds, hrc]
          rw [get_ts, hrc, List.find?_cons_of_neg _ (by rw [hs]; simp)]
          exact ih
      | some g =>
          cases hch : g.could_have with
          | false =>
              have hs : strategy_succeeds run c = false := by
                simp [strategy_succeeds, hrc, hch]
              rw [get_ts, hrc, List.find?_cons_of_neg _ (by rw [hs]; simp)]
              simp only [hch, Bool.not_false, if_true]
              exact ih
          | true =>
              cases htt : g.is_true_ts with
              | false =>
                  have hs : strategy_succeeds run c = false := by
                    simp [strategy_succeeds, hrc, hch, htt]
                  rw [get_ts, hrc, List.find?_cons_of_neg _ (by rw [hs]; simp)]
                  simp only [hch, htt, Bool.not_true, Bool.not_false, if_false,
                    if_true]
                  exact ih
              | true =>
                  have hs : strategy_succeeds run c = true := by
                    simp [strategy_succeeds, hrc, hch, htt]
                  rw [get_ts, hrc, List.find?_cons_of_pos _ hs]
                  simp [hch, htt, hrc]

/-- Claim C5: for every bond rearrangement, `get_ts` tries the generator
items in order, continuing past a strategy that yields no guess, fails the
fast plausibility check, or fails full validation after the TS
optimisation, and returns the transition state of the first strategy that
validates (the first item on which `strategy_succeeds`); it returns None
exactly when every strategy has been exhausted without success. -/
theorem get_ts_first_validated_strategy (reaction : ReactionL)
    (avg_bond_length : String → String → ℚ) (dist : ℕ → ℕ → ℚ)
    (label : ℕ → String) (br : BondRearrangement)
    (run : StrategyCall → Option GuessOutcome) :
    get_ts (get_ts_guess_function_and_params reaction avg_bond_length dist label br)
        run
      = ((get_ts_guess_function_and_params reaction avg_bond_length dist label
            br).find? (strategy_succeeds run)).bind
          (fun c => (run c).map (fun g => (c, g)))
    ∧ (get_ts (get_ts_guess_function_and_params reaction avg_bond_length dist label
          br) run = none
        ↔ ∀ c ∈ get_ts_guess_function_and_params reaction avg_bond_length dist
            label br, strategy_succeeds run c = false) := by
  refine ⟨get_ts_eq_find run _, ?_⟩
  rw [get_ts_eq_find run _]
  constructor
  · intro h c hc
    cases hf : (get_ts_guess_function_and_params reaction avg_bond_length dist
        label br).find? (strategy_succeeds run) with
    | none =>
        have := List.find?_eq_none.mp hf c hc
        simpa using this
    | some x =>
        rw [hf] at h
        have hpx := List.find?_some hf
        cases hrx : run x with
        | none => simp [strategy_succeeds, hrx] at hpx
        | some g => simp [hrx] at h
  · intro h
    have : (get_ts_guess_function_and_params reaction avg_bond_length dist label
        br).find? (strategy_succeeds run) = none := by
      rw [List.find?_eq_none]
      intro x hx
      rw [h x hx]
      simp
    rw [this]
    rfl

/-- A transition state as the top-level search stores it: its electronic
energy. -/
structure TSEnergy : Type where
  energy : ℚ
deriving DecidableEq

/-- Embedding of `find_tss` (locate_tss.py lines 21-52).
`bond_rearrangs` is the result of the enumerator `get_bond_rearrangs`
(None when no forming/breaking bond set is found) and `get_ts_result br`
abstracts the whole per-rearrangement search `get_ts(reaction, reactant,
product, br)`.  The found transition states are collected in enumeration
order; an empty collection is reported as None. -/
def find_tss (bond_rearrangs : Option (List BondRearrangement))
    (get_ts_result : BondRearrangement → Option TSEnergy) :
    Option (List TSEnergy) :=
  match bond_rearrangs with
  | none => none
  | some brs =>
      if 0 < (brs.filterMap get_ts_result).length then
        some (brs.filterMap get_ts_result)
      else none

/-- Claim C8: `find_tss` returns None both when the enumerator finds no
bond rearrangement and when every enumerated rearrangement fails to yield
a transition state — by totality of the embedding, without raising — and
otherwise returns the non-empty list of found transition states in
enumeration order. -/
theorem find_tss_none_cases :
    (∀ g : BondRearrangement → Option TSEnergy, find_tss none g = none)
    ∧ (∀ (brs : List BondRearrangement) (g : BondRearrangement → Option TSEnergy),
        (∀ br ∈ brs, g br = none) → find_tss (some brs) g = none)
    ∧ (∀ (brs : List BondRearrangement) (g : BondRearrangement → Option TSEnergy),
        brs.filterMap g ≠ [] →
        find_tss (some brs) g = some (brs.filterMap g)) := by
  refine ⟨fun _ => rfl, ?_, ?_⟩
  · intro brs g h
    have hnil : brs.filterMap g = [] := List.filterMap_eq_nil_iff.mpr h
    rw [find_tss, hnil]
    rfl
  · intro brs g h
    rw [find_tss, if_pos (List.length_pos.mpr h)]

/-- Witness for claim C8 at concrete enumerator outcomes: no rearrangement
found, one rearrangement with a failed search, and one rearrangement with
a found transition state. -/
theorem find_tss_none_cases_witness :
    find_tss none (fun _ => none) = none
    ∧ find_tss (some [⟨[(0, 1)], []⟩]) (fun _ => none) = none
    ∧ find_tss (some [⟨[(0, 1)], []⟩]) (fun _ => some ⟨1⟩) = some [⟨1⟩] :=
  ⟨find_tss_none_cases.1 (fun _ => none),
   find_tss_none_cases.2.1 [⟨[(0, 1)], []⟩] (fun _ => none) (fun _ _ => rfl),
   find_tss_none_cases.2.2 [⟨[(0, 1)], []⟩] (fun _ => some ⟨1⟩) (by simp)⟩

/-! ## Reaction-level bookkeeping (src/autode/reaction.py) -/

/-- The Python `min([ts.energy for ts in self.tss])`: the least energy of a
transition-state list, as the left fold that the CPython builtin performs (0 for the
empty list, on which Python would raise instead). -/
def minE : List TSEnergy → ℚ
  | [] => 0
  | t :: rest => rest.foldl (fun acc x => min acc x.energy) t.energy

/-- Embedding of `Reaction.find_lowest_energy_ts` (reaction.py lines
141-156): None when `self.tss` is unset; with more than one transition
state, the first element of the list whose energy equals the minimum
energy; otherwise `self.tss[0]`.  The Python index accesses raise
IndexError on an empty list; they are rendered by `head?`, which the
claim never reaches since it concerns unset and non-empty lists only. -/
def find_lowest_energy_ts (tss : Option (List TSEnergy)) : Option TSEnergy :=
  match tss with
  | none => none
  | some l =>
      if 1 < l.length then
        (l.filter (fun x => decide (x.energy = minE l))).head?
      else l.head?

lemma filter_head_eq_find {α : Type} (p : α → Bool) :
    ∀ l : List α, (l.filter p).head? = l.find? p := by
  intro l
  induction l with
  | nil => rfl
  | cons a l ih =>
      cases hpa : p a with
      | false =>
          rw [List.filter_cons_of_neg (by rw [hpa]; simp),
            List.find?_cons_of_neg _ (by rw [hpa]; simp)]
          exact ih
      | true =>
          rw [List.filter_cons_of_pos hpa, List.find?_cons_of_pos _ hpa]
          rfl

lemma foldl_min_attained :
    ∀ (rest : List TSEnergy) (a : ℚ),
      rest.foldl (fun acc x => min acc x.energy) a = a
      ∨ ∃ x ∈ rest, rest.foldl (fun acc x => min acc x.energy) a = x.energy := by
  intro rest
  induction rest with
  | nil => intro a; left; rfl
  | cons y ys ih =>
      intro a
      rcases ih (min a y.energy) with h | ⟨x, hx, h⟩
      · rcases min_choice a y.energy with hm | hm
        · left
          rw [List.foldl_cons, h, hm]
        · right
          exact ⟨y, List.mem_cons_self y ys, by rw [List.foldl_cons, h, hm]⟩
      · right
        exact ⟨x, List.mem_cons_of_mem y hx, by rw [List.foldl_cons, h]⟩

lemma minE_attained (l : List TSEnergy) (h : l ≠ []) :
    ∃ x ∈ l, x.energy = minE l := by
  match l with
  | [] => exact absurd rfl h
  | t :: rest =>
      rcases foldl_min_attained rest t.energy with h1 | ⟨x, hx, h1⟩
      · exact ⟨t, List.mem_cons_self t rest, by rw [minE]; exact h1.symm⟩
      · exact ⟨x, List.mem_cons_of_mem t hx, by rw [minE]; exact h1.symm⟩

/-- Claim C9: `find_lowest_energy_ts` returns None when the
transition-state list is unset, and on every non-empty list it returns the
first element whose energy equals the minimum energy of the list — such an
element always exists. -/
theorem find_lowest_energy_ts_min_first :
    find_lowest_energy_ts none = none
    ∧ ∀ l : List TSEnergy, l ≠ [] →
        find_lowest_energy_ts (some l)
            = l.find? (fun x => decide (x.energy = minE l))
        ∧ ∃ t, find_lowest_energy_ts (some l) = some t ∧ t.energy = minE l := by
  refine ⟨rfl, ?_⟩
  intro l hne
  have hfind : find_lowest_energy_ts (some l)
      = l.find? (fun x => decide (x.energy = minE l)) := by
    by_cases hlen : 1 < l.length
    · rw [find_lowest_energy_ts, if_pos hlen]
      exact filter_head_eq_find _ l
    · match l, hne with
      | [t], _ =>
          rw [find_lowest_energy_ts, if_neg hlen,
            List.find?_cons_of_pos _ (by simp [minE])]
          rfl
      | t :: u :: rest, _ =>
          exact absurd (by simp only [List.length_cons]; omega) hlen
  refine ⟨hfind, ?_⟩
  obtain ⟨x, hx, hxe⟩ := minE_attained l hne
  cases hf : l.find? (fun x => decide (x.energy = minE l)) with
  | none =>
      have := List.find?_eq_none.mp hf x hx
      exact absurd (by simp [hxe]) this
  | some t =>
      have hpt := List.find?_some hf
      exact ⟨t, by rw [hfind, hf], of_decide_eq_true hpt⟩

/-- Demonstration transition-state list with a tie for the minimum
energy. -/
def demoTSs : List TSEnergy := [⟨3⟩, ⟨1⟩, ⟨1⟩]

/-- Witness for claim C9 at a concrete non-empty transition-state list. -/
theorem find_lowest_energy_ts_min_first_witness :
    find_lowest_energy_ts (some demoTSs)
        = demoTSs.find? (fun x => decide (x.energy = minE demoTSs))
    ∧ ∃ t, find_lowest_energy_ts (some demoTSs) = some t
        ∧ t.energy = minE demoTSs :=
  find_lowest_energy_ts_min_first.2 demoTSs (by simp [demoTSs])

/-- A molecule as `Reaction.__init__` and its checks consume it: its atom
count, net charge, optional solvent name and molecular-graph edge count. -/
structure Mol : Type where
  n_atoms : ℕ
  charge : ℤ
  solvent : Option String
  n_edges : ℕ
deriving DecidableEq

/-- The exceptions `Reaction.__init__` can raise:
`UnbalancedReaction` and `SolventsDontMatch` from `autode.exceptions`, the
AttributeError a `None.name` access raises on the final logging line of
`_check_solvent` (reaction.py line 87) when reactant and product solvents
are mixed, and the IndexError a `self.reacs[0]` access raises when there is
no reactant. -/
inductive InitError : Type
  | unbalancedReaction
  | solventsDontMatch
  | attributeError
  | indexError
deriving DecidableEq

/-- Embedding of `Reaction._check_solvent` (reaction.py lines 64-88),
returning the reaction solvent it settles on.  With no named solvent:
all species solvent-free is the gas phase (early return); all species
solvated requires every solvent to equal that of the first reactant, else
SolventsDontMatch; a mixture falls through to the final logging line,
which dereferences the unset reaction solvent and raises AttributeError. -/
def check_solvent (solvent0 : Option String) (reacs prods : List Mol) :
    Except InitError (Option String) :=
  match solvent0 with
  | some s => Except.ok (some s)
  | none =>
      if (reacs ++ prods).all (fun m => m.solvent.isNone) then
        Except.ok none
      else if (reacs ++ prods).all (fun m => m.solvent.isSome) then
        match reacs with
        | [] => Except.error InitError.indexError
        | r0 :: _ =>
            if (reacs ++ prods).all (fun m => decide (m.solvent = r0.solvent)) then
              Except.ok r0.solvent
            else Except.error InitError.solventsDontMatch
      else Except.error InitError.attributeError

/-- Embedding of `Reaction._check_balance` (reaction.py lines 47-62):
raise UnbalancedReaction when the reactant and product atom counts differ,
then when the summed charges differ; otherwise the reaction charge is the
sum of the reactant charges. -/
def check_balance (reacs prods : List Mol) : Except InitError ℤ :=
  if (reacs.map (fun m => m.n_atoms)).sum ≠ (prods.map (fun m => m.n_atoms)).sum then
    Except.error InitError.unbalancedReaction
  else if (reacs.map Mol.charge).sum ≠ (prods.map Mol.charge).sum then
    Except.error InitError.unbalancedReaction
  else
    Except.ok ((reacs.map Mol.charge).sum)

/-- The solvent assignment loop of `_check_solvent` (reaction.py lines
84-85): when a reaction solvent is set, every molecule receives it. -/
def assignSolvent (s : Option String) (mols : List Mol) : List Mol :=
  match s with
  | none => mols
  | some _ => mols.map (fun m => { m with solvent := s })

/-- The state of a constructed `Reaction` object relevant to the
constructor checks. -/
structure ReactionR : Type where
  reacs : List Mol
  prods : List Mol
  charge : ℤ
  solvent : Option String
  switched_reacs_prods : Bool
  rtype : ReactionType
deriving DecidableEq

/-- Embedding of `Reaction.__init__` (reaction.py lines 195-218) after the
reactant/product partition: the reaction class computed by
`reactions.classify` is the `rtype` parameter and `solvent0` the result of
`get_solvent(solvent_name)` (both live outside the provided source tree);
then `_check_solvent` runs, then `_check_balance` sets the charge, then an
Addition is switched to a reversed Dissociation and a Rearrangement whose
products have more bonds is reversed (`_check_rearrangement`, lines
90-103). -/
def reaction_init (reacs prods : List Mol) (solvent0 : Option String)
    (rtype : ReactionType) : Except InitError ReactionR :=
  match check_solvent solvent0 reacs prods with
  | Except.error e => Except.error e
  | Except.ok s =>
      match check_balance reacs prods with
      | Except.error e => Except.error e
      | Except.ok q =>
          if rtype = ReactionType.Addition then
            Except.ok ⟨assignSolvent s prods, assignSolvent s reacs, q, s, true,
              ReactionType.Dissociation⟩
          else if rtype = ReactionType.Rearrangement ∧
              ((reacs.map (fun m => (m.n_edges : ℤ))).sum
                - (prods.map (fun m => (m.n_edges : ℤ))).sum < 0) then
            Except.ok ⟨assignSolvent s prods, assignSolvent s reacs, q, s, true,
              ReactionType.Rearrangement⟩
          else
            Except.ok ⟨assignSolvent s reacs, assignSolvent s prods, q, s, false,
              rtype⟩

/-- Counterexample to claim C10 as stated: reactant and product with
differing atom counts but mismatched solvents; the constructor raises
SolventsDontMatch — not UnbalancedReaction — because `_check_solvent` runs
before `_check_balance`. -/
theorem reaction_init_solvent_counterexample :
    reaction_init [⟨1, 0, some "water", 0⟩] [⟨2, 0, some "thf", 0⟩] none
        ReactionType.Substitution = Except.error InitError.solventsDontMatch
    ∧ ([(⟨1, 0, some "water", 0⟩ : Mol)].map (fun m => m.n_atoms)).sum
        ≠ ([(⟨2, 0, some "thf", 0⟩ : Mol)].map (fun m => m.n_atoms)).sum
    ∧ InitError.solventsDontMatch ≠ InitError.unbalancedReaction := by
  refine ⟨rfl, by decide, by decide⟩

lemma check_balance_ok (reacs prods : List Mol) (q : ℤ)
    (h : check_balance reacs prods = Except.ok q) :
    q = (reacs.map Mol.charge).sum := by
  rw [check_balance] at h
  by_cases h1 : (reacs.map (fun m => m.n_atoms)).sum
      ≠ (prods.map (fun m => m.n_atoms)).sum
  · rw [if_pos h1] at h
    exact absurd h (by simp)
  · rw [if_neg h1] at h
    by_cases h2 : (reacs.map Mol.charge).sum ≠ (prods.map Mol.charge).sum
    · rw [if_pos h2] at h
      exact absurd h (by simp)
    · rw [if_neg h2] at h
      exact (Except.ok.injEq _ _ ▸ h).symm

/-- Claim C10 (amended): provided the solvent-consistency check passes,
constructing a Reaction raises UnbalancedReaction whenever the total atom
count of the reactants differs from that of the products or the summed
reactant charge differs from the summed product charge; and when
construction succeeds, the reaction charge equals the sum of the reactant
charges.  (As stated the claim fails: a solvent mismatch raises first.) -/
theorem reaction_init_unbalanced (reacs prods : List Mol)
    (solvent0 : Option String) (rtype : ReactionType) (s : Option String)
    (hsolv : check_solvent solvent0 reacs prods = Except.ok s) :
    (((reacs.map (fun m => m.n_atoms)).sum ≠ (prods.map (fun m => m.n_atoms)).sum
        ∨ (reacs.map Mol.charge).sum ≠ (prods.map Mol.charge).sum) →
      reaction_init reacs prods solvent0 rtype
        = Except.error InitError.unbalancedReaction)
    ∧ (∀ r : ReactionR, reaction_init reacs prods solvent0 rtype = Except.ok r →
        r.charge = (reacs.map Mol.charge).sum) := by
  constructor
  · intro h
    have hcb : check_balance reacs prods
        = Except.error InitError.unbalancedReaction := by
      rw [check_balance]
      rcases h with h | h
      · rw [if_pos h]
      · by_cases h1 : (reacs.map (fun m => m.n_atoms)).sum
            ≠ (prods.map (fun m => m.n_atoms)).sum
        · rw [if_pos h1]
        · rw [if_neg h1, if_pos h]
    rw [reaction_init, hsolv, hcb]
  · intro r hr
    rw [reaction_init, hsolv] at hr
    cases hcb : check_balance reacs prods with
    | error e => rw [hcb] at hr; exact absurd hr (by simp)
    | ok q =>
        rw [hcb] at hr
        dsimp only at hr
        have hq := check_balance_ok reacs prods q hcb
        by_cases ha : rtype = ReactionType.Addition
        · rw [if_pos ha] at hr
          cases hr
          exact hq
        · rw [if_neg ha] at hr
          by_cases hb : rtype = ReactionType.Rearrangement ∧
              ((reacs.map (fun m => (m.n_edges : ℤ))).sum
                - (prods.map (fun m => (m.n_edges : ℤ))).sum < 0)
          · rw [if_pos hb] at hr
            cases hr
            exact hq
          · rw [if_neg hb] at hr
            cases hr
            exact hq

/-- Witness for claim C10: a gas-phase unbalanced pair raises
UnbalancedReaction, and a balanced construction carries the summed
reactant charge. -/
theorem reaction_init_unbalanced_witness :
    reaction_init [⟨1, 1, none, 0⟩] [⟨2, 1, none, 0⟩] none
        ReactionType.Substitution = Except.error InitError.unbalancedReaction
    ∧ (⟨[⟨1, 1, none, 0⟩], [⟨1, 1, none, 0⟩], 1, none, false,
          ReactionType.Substitution⟩ : ReactionR).charge
        = ([(⟨1, 1, none, 0⟩ : Mol)].map Mol.charge).sum :=
  ⟨(reaction_init_unbalanced [⟨1, 1, none, 0⟩] [⟨2, 1, none, 0⟩] none
      ReactionType.Substitution none rfl).1 (Or.inl (by decide)),
   (reaction_init_unbalanced [⟨1, 1, none, 0⟩] [⟨1, 1, none, 0⟩] none
      ReactionType.Substitution none rfl).2
     ⟨[⟨1, 1, none, 0⟩], [⟨1, 1, none, 0⟩], 1, none, false,
      ReactionType.Substitution⟩ rfl⟩
